import Mathlib

/-!
Shallow embedding of the CVAT-to-YOLO pose label converter
(src/annotation_converter.py) and verification of its specification.

Modelling conventions:
- XML element nodes become structures holding exactly the attributes and
  children the script reads.  Attribute text that the script parses with
  float() is modelled as a rational number; Python's int(float(s))
  truncation toward zero is modelled by pyint.
- Python dicts (built by ConfigurationDetectClasses from the JSON file)
  are insertion-ordered association lists; dict[k] lookups that can raise
  KeyError are modelled in the Except String monad.
- The emitted label files are modelled at token level: every token the
  script writes is numeric, so a file is a list of lines and a line a
  list of rationals, in the exact order written.
-/

namespace YoloPose

/-- One child element named attribute, carrying its name attribute and
its text content (firstChild.data). -/
structure AttributeNode where
  name : String
  data : String
  deriving DecidableEq

/-- One points element inside a skeleton: its label attribute, its
occluded attribute (kept verbatim as the attribute string), and the two
coordinates parsed from its points attribute. -/
structure PointsNode where
  label : String
  occluded : String
  x : ℚ
  y : ℚ
  deriving DecidableEq

/-- One box element: the four corner attributes (parsed floats) and its
attribute children. -/
structure BoxNode where
  xtl : ℚ
  ytl : ℚ
  xbr : ℚ
  ybr : ℚ
  attrs : List AttributeNode
  deriving DecidableEq

/-- One skeleton element: its attribute children and its points children. -/
structure SkeletonNode where
  attrs : List AttributeNode
  points : List PointsNode
  deriving DecidableEq

/-- One image element of the source document. -/
structure ImageNode where
  width : ℕ
  height : ℕ
  name : String
  boxes : List BoxNode
  skeletons : List SkeletonNode
  deriving DecidableEq

/-- ConfigurationDetectClasses: classes_id maps class name to class id,
amount_of_keypoints maps class id to keypoint count.  Python dicts are
modelled as insertion-ordered association lists with unique keys. -/
structure ConfigurationDetectClasses where
  classes_id : List (String × ℕ)
  amount_of_keypoints : List (ℕ × ℕ)
  deriving DecidableEq

/-- Python int(float(s)) on the rational value of s: truncation toward
zero. -/
def pyint (q : ℚ) : ℤ :=
  if 0 ≤ q then ⌊q⌋ else ⌈q⌉

/-- The attribute-scanning loops (lines 57-63 and 66-72 of the source):
iterate over the attribute children, remembering the data of the last
one named class and the last one named id; a name that never occurs
stays None. -/
def extractKey (attrs : List AttributeNode) : Option String × Option String :=
  attrs.foldl
    (fun acc a =>
      if a.name = "class" then (some a.data, acc.2)
      else if a.name = "id" then (acc.1, some a.data)
      else acc)
    (none, none)

/-- DetectedObject.order_points_node_list: for i in 1..len, append every
node whose label attribute equals str(i), in input order. -/
def order_points_node_list (pts : List PointsNode) : List PointsNode :=
  (List.range pts.length).foldl
    (fun acc i => acc ++ pts.filter (fun p => p.label = toString (i + 1)))
    []

/-- A DetectedObject: the correlated box, the ordered keypoint nodes,
the class string taken from the box's class attribute (possibly None),
and the resolved class id. -/
structure DetectedObject where
  bounding_box_node : BoxNode
  points_node_list : List PointsNode
  object_class : Option String
  object_class_id : ℕ
  deriving DecidableEq

/-- DetectedObject.__init__: resolves classes_id[object_class]; a
missing key (including object_class None) raises KeyError. -/
def DetectedObject.make (box : BoxNode) (points : List PointsNode)
    (object_class : Option String) (cfg : ConfigurationDetectClasses) :
    Except String DetectedObject :=
  match object_class.bind (fun c => cfg.classes_id.lookup c) with
  | some cid => .ok ⟨box, order_points_node_list points, object_class, cid⟩
  | none => .error "KeyError"

/-- Inner loop of get_detected_object_list: scan every skeleton; on a
key match construct a DetectedObject (possibly raising) and append it.
There is no break: every matching skeleton contributes. -/
def corrSkels (cfg : ConfigurationDetectClasses) (box : BoxNode)
    (bkey : Option String × Option String) (acc : List DetectedObject) :
    List SkeletonNode → Except String (List DetectedObject)
  | [] => .ok acc
  | s :: rest =>
    if extractKey s.attrs = bkey then
      match DetectedObject.make box s.points bkey.1 cfg with
      | .ok d => corrSkels cfg box bkey (acc ++ [d]) rest
      | .error e => .error e
    else
      corrSkels cfg box bkey acc rest

/-- Outer loop of get_detected_object_list: process the boxes in input
order, accumulating detected objects. -/
def corrBoxes (cfg : ConfigurationDetectClasses) (skels : List SkeletonNode)
    (acc : List DetectedObject) :
    List BoxNode → Except String (List DetectedObject)
  | [] => .ok acc
  | b :: rest =>
    match corrSkels cfg b (extractKey b.attrs) acc skels with
    | .ok acc2 => corrBoxes cfg skels acc2 rest
    | .error e => .error e

/-- DetectedObject.get_detected_object_list. -/
def get_detected_object_list (boxes : List BoxNode) (skels : List SkeletonNode)
    (cfg : ConfigurationDetectClasses) : Except String (List DetectedObject) :=
  corrBoxes cfg skels [] boxes

/-- convert_bounding_box_from_cvat_to_yolo_format: corners are read with
int(float(.)), then the center-form normalized quadruple is computed
with exact (float) division. -/
def convert_bounding_box_from_cvat_to_yolo_format (b : BoxNode)
    (image_width image_height : ℕ) : ℚ × ℚ × ℚ × ℚ :=
  let xtl := pyint b.xtl
  let ytl := pyint b.ytl
  let xbr := pyint b.xbr
  let ybr := pyint b.ybr
  let w := xbr - xtl
  let h := ybr - ytl
  (((xtl : ℚ) + (w : ℚ) / 2) / image_width,
   ((ytl : ℚ) + (h : ℚ) / 2) / image_height,
   (w : ℚ) / image_width,
   (h : ℚ) / image_height)

/-- write_points_of_object: an occluded keypoint (attribute "1") writes
the tokens 0 0 0; otherwise the coordinates are truncated via
int(float(.)), divided by the image dimensions, and followed by the
visibility flag 2. -/
def write_points_of_object (kp : PointsNode) (image_width image_height : ℕ) :
    List ℚ :=
  if kp.occluded = "1" then [0, 0, 0]
  else [(pyint kp.x : ℚ) / image_width, (pyint kp.y : ℚ) / image_height, 2]

/-- A label file at token level: one entry per line, each line the list
of numeric tokens written on it. -/
abbrev FileContent := List (List ℚ)

/-- The keypoint-block loop of the emitter (source lines 167-173), with
the index list made explicit: for the object's own class id write one
triple per ordered keypoint node; for any other index write
amount_of_keypoints[index] placeholder triples, a missing key raising
KeyError. -/
def kpBlockGo (cfg : ConfigurationDetectClasses) (W H : ℕ) (d : DetectedObject)
    (acc : List ℚ) : List ℕ → Except String (List ℚ)
  | [] => .ok acc
  | i :: rest =>
    if d.object_class_id = i then
      kpBlockGo cfg W H d
        (acc ++ d.points_node_list.foldl
          (fun a kp => a ++ write_points_of_object kp W H) []) rest
    else
      match cfg.amount_of_keypoints.lookup i with
      | some n => kpBlockGo cfg W H d (acc ++ (List.replicate n [(0:ℚ), 0, 0]).flatten) rest
      | none => .error "KeyError"

/-- The keypoint block of one output row: the loop above run over the
indices range(len(amount_of_keypoints)). -/
def keypoint_block (cfg : ConfigurationDetectClasses) (W H : ℕ)
    (d : DetectedObject) : Except String (List ℚ) :=
  kpBlockGo cfg W H d [] (List.range cfg.amount_of_keypoints.length)

/-- One output line for a DetectedObject (source lines 164-174): the
class id, the four normalized box tokens, then the keypoint block. -/
def emitRow (cfg : ConfigurationDetectClasses) (W H : ℕ) (d : DetectedObject) :
    Except String (List ℚ) :=
  match keypoint_block cfg W H d with
  | .ok blk =>
    let bb := convert_bounding_box_from_cvat_to_yolo_format d.bounding_box_node W H
    .ok ((d.object_class_id : ℚ) :: bb.1 :: bb.2.1 :: bb.2.2.1 :: bb.2.2.2 :: blk)
  | .error e => .error e

/-- The per-object loop of one image: one line per DetectedObject, in
list order. -/
def emitRows (cfg : ConfigurationDetectClasses) (W H : ℕ) :
    List DetectedObject → Except String FileContent
  | [] => .ok []
  | d :: rest =>
    match emitRow cfg W H d with
    | .ok row =>
      match emitRows cfg W H rest with
      | .ok rows => .ok (row :: rows)
      | .error e => .error e
    | .error e => .error e

/-- Whether the regex fragment .*$ matches the whole remaining text t
(Python re: . does not match a newline; $ matches at the end of the
string or just before a final newline).  Returns the suffix the match
leaves in place: none when there is no match. -/
def tailMatch (t : List Char) : Option (List Char) :=
  if t.all (fun c => c ≠ '\n') then some []
  else if t.getLast? = some '\n' ∧ t.dropLast.all (fun c => c ≠ '\n') then
    some ['\n']
  else none

/-- Leftmost application of re.sub with the pattern backslash-dot
dot-star dollar and the replacement .txt: scan for the first dot at
which .*$ matches the rest, replace the matched span.  At most one
match is possible because the pattern consumes to the string end. -/
def subDotTxt : List Char → List Char
  | [] => []
  | c :: cs =>
    if c = '.' then
      match tailMatch cs with
      | some r => '.' :: 't' :: 'x' :: 't' :: r
      | none => c :: subDotTxt cs
    else c :: subDotTxt cs

/-- Image.image_name_with_txt_extension (source line 100). -/
def image_name_with_txt_extension (name : String) : String :=
  ⟨subDotTxt name.data⟩

/-- Processing of one image element of the document loop (source lines
158-176): an image with no box children is skipped entirely (no file);
otherwise the Image is built (correlation runs, possibly raising), the
label file is created, and one line per DetectedObject is written. -/
def processImageNode (cfg : ConfigurationDetectClasses) (node : ImageNode) :
    Except String (Option (String × FileContent)) :=
  if node.boxes.length > 0 then
    match get_detected_object_list node.boxes node.skeletons cfg with
    | .ok objs =>
      match emitRows cfg node.width node.height objs with
      | .ok rows => .ok (some (image_name_with_txt_extension node.name, rows))
      | .error e => .error e
    | .error e => .error e
  else .ok none

/-- The document loop: images processed strictly in order; the first
raised error aborts the run. -/
def runGo (cfg : ConfigurationDetectClasses)
    (acc : List (String × FileContent)) :
    List ImageNode → Except String (List (String × FileContent))
  | [] => .ok acc
  | n :: rest =>
    match processImageNode cfg n with
    | .ok none => runGo cfg acc rest
    | .ok (some out) => runGo cfg (acc ++ [out]) rest
    | .error e => .error e

/-- The whole script run on a parsed document: the list of written
(file name, file content) pairs, or the error that aborted the run. -/
def runScript (cfg : ConfigurationDetectClasses) (nodes : List ImageNode) :
    Except String (List (String × FileContent)) :=
  runGo cfg [] nodes

/-- A file system restricted to the output directory: file name to
content.  Writing the outputs of a run applies each write in order,
each one truncating (mode w) any previous content of that name. -/
def writeOutputs (fs : String → Option FileContent) :
    List (String × FileContent) → String → Option FileContent
  | [], n => fs n
  | o :: rest, n =>
    writeOutputs (fun m => if m = o.1 then some o.2 else fs m) rest n

/-- The last write a run performs on the file of the given name, if
any: later entries of the output list win. -/
def lastW : List (String × FileContent) → String → Option FileContent
  | [], _ => none
  | o :: rest, n =>
    match lastW rest n with
    | some v => some v
    | none => if n = o.1 then some o.2 else none

/-- Modelled from the spec (section 4.4 box normalization): the
center-form formula applied directly to the given corner values,
without the truncation the code performs.  Used to compare the code
against the spec's stated formula. -/
def convert_bounding_box_spec (xtl ytl xbr ybr : ℚ) (W H : ℕ) :
    ℚ × ℚ × ℚ × ℚ :=
  let w := xbr - xtl
  let h := ybr - ytl
  ((xtl + w / 2) / W, (ytl + h / 2) / H, w / W, h / H)

/-- Reference correlation result (for the amended C2): one
DetectedObject per (box, matching skeleton) pair, boxes in input order,
matching skeletons in input order inside each box. -/
def correlate_pairs (boxes : List BoxNode) (skels : List SkeletonNode)
    (cfg : ConfigurationDetectClasses) : List DetectedObject :=
  boxes.flatMap (fun b =>
    ((skels.filter (fun s => extractKey s.attrs = extractKey b.attrs)).filterMap
      (fun s => (DetectedObject.make b s.points (extractKey b.attrs).1 cfg).toOption)))

/-- Example registry: one class named a with id 0 and two keypoints. -/
def exCfg : ConfigurationDetectClasses := ⟨[("a", 0)], [(0, 2)]⟩

/-- Example correlation attributes: class a, id 1. -/
def exKeyAttrs : List AttributeNode := [⟨"class", "a"⟩, ⟨"id", "1"⟩]

def exBox : BoxNode := ⟨0, 0, 1, 1, exKeyAttrs⟩

def exSkel1 : SkeletonNode := ⟨exKeyAttrs, []⟩

def exSkel2 : SkeletonNode := ⟨exKeyAttrs, [⟨"1", "0", 5, 5⟩]⟩

def exDetected1 : DetectedObject := ⟨exBox, [], some "a", 0⟩

def exDetected2 : DetectedObject := ⟨exBox, [⟨"1", "0", 5, 5⟩], some "a", 0⟩

/-- Example attributes naming a class that is not in the registry. -/
def exBadAttrs : List AttributeNode := [⟨"class", "z"⟩, ⟨"id", "1"⟩]

/-- Example image whose only box correlates with a skeleton of an
unregistered class. -/
def exBadNode : ImageNode :=
  ⟨100, 100, "img.png", [⟨0, 0, 1, 1, exBadAttrs⟩], [⟨exBadAttrs, []⟩]⟩

/-- Example registry with two classes: a (id 0, 2 keypoints) and
b (id 1, 3 keypoints). -/
def exCfg2 : ConfigurationDetectClasses :=
  ⟨[("a", 0), ("b", 1)], [(0, 2), (1, 3)]⟩

/-- Example detected object of class a with two ordered keypoints. -/
def exObj : DetectedObject :=
  ⟨exBox, [⟨"1", "0", 1, 1⟩, ⟨"2", "0", 2, 2⟩], some "a", 0⟩

/-! ## Helper lemmas -/

theorem pyint_intCast (x : ℤ) : pyint (x : ℚ) = x := by
  unfold pyint
  split <;> simp

/-- Folding append of generated blocks over a list, starting from init,
is init followed by the flattened blocks. -/
theorem foldl_append_eq {α β : Type} (f : β → List α) (idxs : List β) :
    ∀ init : List α,
      idxs.foldl (fun acc i => acc ++ f i) init = init ++ (idxs.map f).flatten := by
  induction idxs with
  | nil => intro init; simp
  | cons i rest ih =>
    intro init
    simp only [List.foldl_cons, List.map_cons, List.flatten_cons]
    rw [ih, List.append_assoc]

theorem flatten_map_singleton {α β : Type} (g : β → α) (l : List β) :
    (l.map fun i => [g i]).flatten = l.map g := by
  induction l with
  | nil => rfl
  | cons x rest ih => simp [ih]

theorem length_flatten_map_of_const {α β : Type} (f : β → List α) (k : ℕ)
    (l : List β) (h : ∀ x ∈ l, (f x).length = k) :
    ((l.map f).flatten).length = k * l.length := by
  induction l with
  | nil => simp
  | cons x rest ih =>
    simp only [List.map_cons, List.flatten_cons, List.length_append,
      List.length_cons]
    rw [h x (by simp), ih (fun y hy => h y (by simp [hy]))]
    ring

/-! ## C4: box normalization -/

/-- C4 counterexample: for the box with corners (0.5, 0, 2, 2) in a 2 by
2 image, the code's output differs from the claimed formula applied to
the float corners, because the code first truncates each corner with
int(float(.)). -/
theorem C4_counterexample :
    convert_bounding_box_from_cvat_to_yolo_format ⟨1/2, 0, 2, 2, []⟩ 2 2 ≠
      convert_bounding_box_spec (1/2) 0 2 2 2 2 := by
  norm_num [convert_bounding_box_from_cvat_to_yolo_format,
    convert_bounding_box_spec, pyint, Prod.ext_iff]

/-- C4 (amended): the code first truncates each corner toward zero to an
integer and only then applies the center-form normalization formula, with
no clamping; the claimed concrete example (integer corners, so truncation
is the identity) holds as stated. -/
theorem C4_amended :
    (∀ (b : BoxNode) (W H : ℕ),
      convert_bounding_box_from_cvat_to_yolo_format b W H =
        convert_bounding_box_spec (pyint b.xtl) (pyint b.ytl)
          (pyint b.xbr) (pyint b.ybr) W H) ∧
    convert_bounding_box_from_cvat_to_yolo_format ⟨10, 10, 30, 50, []⟩ 100 200 =
      (1/5, 3/20, 1/5, 1/5) := by
  constructor
  · intro b W H
    simp only [convert_bounding_box_from_cvat_to_yolo_format,
      convert_bounding_box_spec, Prod.ext_iff]
    push_cast
    refine ⟨by ring_nf, by ring_nf, by ring_nf, by ring_nf⟩
  · norm_num [convert_bounding_box_from_cvat_to_yolo_format, pyint,
      Prod.ext_iff]

/-! ## C5: keypoint normalization -/

/-- C5: an occluded keypoint (occluded attribute "1") is written as the
placeholder triple 0 0 0, whatever its coordinates; a non-occluded
keypoint at integral pixel coordinates (x, y) is written as
(x / W, y / H, 2). -/
theorem C5_keypoint_normalization (W H : ℕ) (kp : PointsNode) :
    (kp.occluded = "1" → write_points_of_object kp W H = [0, 0, 0]) ∧
    (kp.occluded ≠ "1" → ∀ x y : ℤ, kp.x = (x : ℚ) → kp.y = (y : ℚ) →
      write_points_of_object kp W H = [(x : ℚ) / W, (y : ℚ) / H, 2]) := by
  constructor
  · intro h
    simp [write_points_of_object, h]
  · intro h x y hx hy
    simp [write_points_of_object, h, hx, hy, pyint_intCast]

/-- C5 witness: concrete non-occluded keypoint at (3, 4) in a 10 by 20
image, and a concrete occluded keypoint. -/
theorem C5_witness :
    (("0" : String) ≠ "1" ∧
      write_points_of_object ⟨"1", "0", 3, 4⟩ 10 20 =
        [((3 : ℤ) : ℚ) / (10 : ℕ), ((4 : ℤ) : ℚ) / (20 : ℕ), 2]) ∧
    (("1" : String) = "1" ∧
      write_points_of_object ⟨"1", "1", 3, 4⟩ 10 20 = [0, 0, 0]) := by
  refine ⟨⟨by decide, ?_⟩, ⟨rfl, ?_⟩⟩
  · exact (C5_keypoint_normalization 10 20 ⟨"1", "0", 3, 4⟩).2 (by decide) 3 4
      (by norm_num) (by norm_num)
  · exact (C5_keypoint_normalization 10 20 ⟨"1", "1", 3, 4⟩).1 rfl

/-! ## C10: output file name -/

/-- C10 counterexample: the name a.b(newline)c contains a dot, but the
pattern never matches (the dot-star cannot cross the newline and the
dollar anchors at the end), so re.sub leaves the name unchanged; the
claim predicts a.txt. -/
theorem C10_counterexample :
    image_name_with_txt_extension "a.b\nc" = "a.b\nc" ∧
    image_name_with_txt_extension "a.b\nc" ≠ "a.txt" := by
  constructor
  · rfl
  · decide

theorem subDotTxt_no_newline (l : List Char) (h : ∀ c ∈ l, c ≠ '\n') :
    ('.' ∉ l → subDotTxt l = l) ∧
    ('.' ∈ l → subDotTxt l = l.takeWhile (fun c => c ≠ '.') ++ ['.', 't', 'x', 't']) := by
  induction l with
  | nil => exact ⟨fun _ => rfl, fun hmem => absurd hmem (by simp)⟩
  | cons c cs ih =>
    have hc : c ≠ '\n' := h c (by simp)
    have hcs : ∀ x ∈ cs, x ≠ '\n' := fun x hx => h x (by simp [hx])
    by_cases hdot : c = '.'
    · subst hdot
      have htail : tailMatch cs = some [] := by
        unfold tailMatch
        have h2 : '\n' ∉ cs := fun hx => (hcs _ hx) rfl
        have : cs.all (fun x => decide (x ≠ '\n')) = true := by
          rw [List.all_eq_true]
          intro x hx
          exact decide_eq_true (hcs x hx)
        simp [this, h2]
      refine ⟨fun hmem => absurd (by simp) hmem, fun _ => ?_⟩
      simp [subDotTxt, htail, List.takeWhile]
    · have hrec := ih hcs
      refine ⟨fun hmem => ?_, fun hmem => ?_⟩
      · have hmem' : '.' ∉ cs := fun hx => hmem (by simp [hx])
        simp only [subDotTxt, if_neg (by simpa [eq_comm] using hdot)]
        rw [hrec.1 hmem']
      · have hmem' : '.' ∈ cs := by
          rcases List.mem_cons.mp hmem with h1 | h1
          · exact absurd h1.symm hdot
          · exact h1
        simp only [subDotTxt, if_neg (by simpa [eq_comm] using hdot)]
        rw [hrec.2 hmem', List.takeWhile_cons]
        simp [hdot]

/-- C10 (amended): for an image name containing no newline character,
the computed output name is: the name unchanged when it contains no dot;
otherwise the part before the first dot followed by .txt.  (With a
newline in the name, the regex can skip dots or fail to match at all, as
the counterexample shows.) -/
theorem C10_amended (name : String) (h : ∀ c ∈ name.data, c ≠ '\n') :
    ('.' ∉ name.data → image_name_with_txt_extension name = name) ∧
    ('.' ∈ name.data → image_name_with_txt_extension name =
      ⟨name.data.takeWhile (fun c => c ≠ '.') ++ ['.', 't', 'x', 't']⟩) := by
  have hsub := subDotTxt_no_newline name.data h
  constructor
  · intro hmem
    show (⟨subDotTxt name.data⟩ : String) = name
    rw [hsub.1 hmem]
  · intro hmem
    show (⟨subDotTxt name.data⟩ : String) = _
    rw [hsub.2 hmem]

/-- C10 witness: img.png maps to img.txt, and a dotless name is kept
unchanged. -/
theorem C10_witness :
    ((∀ c ∈ ("img.png" : String).data, c ≠ '\n') ∧
      image_name_with_txt_extension "img.png" = "img.txt") ∧
    ((∀ c ∈ ("noext" : String).data, c ≠ '\n') ∧
      image_name_with_txt_extension "noext" = "noext") := by
  refine ⟨⟨by decide, ?_⟩, ⟨by decide, ?_⟩⟩
  · have h := (C10_amended "img.png" (by decide)).2 (by decide)
    rw [h]
    decide
  · exact (C10_amended "noext" (by decide)).1 (by decide)

/-! ## C6: keypoint ordering -/

theorem filter_map_label_of_length_one (pts : List PointsNode) (s : String)
    (h : (pts.filter (fun p => p.label = s)).length = 1) :
    (pts.filter (fun p => p.label = s)).map PointsNode.label = [s] := by
  rcases List.length_eq_one.mp h with ⟨a, ha⟩
  have hmem : a ∈ pts.filter (fun p => p.label = s) := by simp [ha]
  have := (List.mem_filter.mp hmem).2
  simp only [decide_eq_true_eq] at this
  simp [ha, this]

/-- C6: when the labels of a keypoint collection of size N are exactly
1..N (each decimal label string occurring exactly once), the ordering
pass returns a sequence whose label sequence is exactly 1, 2, ..., N: same
length, ascending by numeric label.  The operation is a pure function of
its input, hence deterministic and non-mutating. -/
theorem C6_ordering (pts : List PointsNode) (N : ℕ)
    (hlen : pts.length = N)
    (hcount : ∀ i, i < N →
      (pts.filter (fun p => p.label = toString (i + 1))).length = 1) :
    (order_points_node_list pts).map PointsNode.label =
      (List.range N).map (fun i => toString (i + 1)) := by
  unfold order_points_node_list
  rw [hlen, foldl_append_eq, List.nil_append, List.map_flatten, List.map_map]
  have hmaps : (List.range N).map
      ((List.map PointsNode.label) ∘ fun i => pts.filter (fun p => p.label = toString (i + 1))) =
      (List.range N).map (fun i => [toString (i + 1)]) := by
    apply List.map_congr_left
    intro i hi
    exact filter_map_label_of_length_one pts (toString (i + 1))
      (hcount i (List.mem_range.mp hi))
  rw [hmaps, flatten_map_singleton]

/-- C6 witness: keypoints declared with labels 3, 1, 2 are returned in
label order 1, 2, 3. -/
theorem C6_witness :
    (([⟨"3", "0", 1, 1⟩, ⟨"1", "0", 2, 2⟩, ⟨"2", "0", 3, 3⟩] :
        List PointsNode).length = 3 ∧
      (∀ i, i < 3 →
        (([⟨"3", "0", 1, 1⟩, ⟨"1", "0", 2, 2⟩, ⟨"2", "0", 3, 3⟩] :
            List PointsNode).filter
          (fun p => p.label = toString (i + 1))).length = 1)) ∧
    (order_points_node_list
        [⟨"3", "0", 1, 1⟩, ⟨"1", "0", 2, 2⟩, ⟨"2", "0", 3, 3⟩]).map
      PointsNode.label = ["1", "2", "3"] := by
  refine ⟨⟨rfl, by decide⟩, ?_⟩
  have h := C6_ordering
    [⟨"3", "0", 1, 1⟩, ⟨"1", "0", 2, 2⟩, ⟨"2", "0", 3, 3⟩] 3 rfl (by decide)
  rw [h]
  decide

/-! ## Correlation lemmas -/

/-- Characterization of the inner skeleton loop on success: the
accumulator is extended by one DetectedObject per matching skeleton, in
input order, and every matching construction succeeded. -/
theorem corrSkels_ok (cfg : ConfigurationDetectClasses) (box : BoxNode)
    (bkey : Option String × Option String) :
    ∀ (skels : List SkeletonNode) (acc l : List DetectedObject),
      corrSkels cfg box bkey acc skels = .ok l →
      (l = acc ++ (skels.filter (fun s => extractKey s.attrs = bkey)).filterMap
          (fun s => (DetectedObject.make box s.points bkey.1 cfg).toOption)) ∧
      ∀ s ∈ skels, extractKey s.attrs = bkey →
        ∃ d, DetectedObject.make box s.points bkey.1 cfg = .ok d := by
  intro skels
  induction skels with
  | nil =>
    intro acc l h
    simp only [corrSkels] at h
    cases h
    exact ⟨by simp, by simp⟩
  | cons s rest ih =>
    intro acc l h
    by_cases hkey : extractKey s.attrs = bkey
    · rw [corrSkels, if_pos hkey] at h
      cases hmake : DetectedObject.make box s.points bkey.1 cfg with
      | ok d =>
        rw [hmake] at h
        obtain ⟨h1, h2⟩ := ih (acc ++ [d]) l h
        refine ⟨?_, ?_⟩
        · rw [h1]
          simp [List.filter_cons, hkey, hmake, Except.toOption]
        · intro t ht hkt
          rcases List.mem_cons.mp ht with rfl | htr
          · exact ⟨d, hmake⟩
          · exact h2 t htr hkt
      | error e =>
        rw [hmake] at h
        cases h
    · rw [corrSkels, if_neg hkey] at h
      obtain ⟨h1, h2⟩ := ih acc l h
      refine ⟨?_, ?_⟩
      · rw [h1]
        simp [List.filter_cons, hkey]
      · intro t ht hkt
        rcases List.mem_cons.mp ht with rfl | htr
        · exact absurd hkt hkey
        · exact h2 t htr hkt

/-- Characterization of the outer box loop on success. -/
theorem corrBoxes_ok (cfg : ConfigurationDetectClasses)
    (skels : List SkeletonNode) :
    ∀ (boxes : List BoxNode) (acc l : List DetectedObject),
      corrBoxes cfg skels acc boxes = .ok l →
      (l = acc ++ correlate_pairs boxes skels cfg) ∧
      ∀ b ∈ boxes, ∀ s ∈ skels, extractKey s.attrs = extractKey b.attrs →
        ∃ d, DetectedObject.make b s.points (extractKey b.attrs).1 cfg = .ok d := by
  intro boxes
  induction boxes with
  | nil =>
    intro acc l h
    simp only [corrBoxes] at h
    cases h
    exact ⟨by simp [correlate_pairs], by simp⟩
  | cons b rest ih =>
    intro acc l h
    simp only [corrBoxes] at h
    cases hcs : corrSkels cfg b (extractKey b.attrs) acc skels with
    | ok acc2 =>
      rw [hcs] at h
      obtain ⟨hs1, hs2⟩ := corrSkels_ok cfg b (extractKey b.attrs) skels acc acc2 hcs
      obtain ⟨h1, h2⟩ := ih acc2 l h
      refine ⟨?_, ?_⟩
      · rw [h1, hs1]
        simp [correlate_pairs, List.append_assoc]
      · intro b' hb' s hs' hk
        rcases List.mem_cons.mp hb' with rfl | hbr
        · exact hs2 s hs' hk
        · exact h2 b' hbr s hs' hk
    | error e =>
      rw [hcs] at h
      cases h

theorem length_filterMap_of_isSome {α β : Type} (g : α → Option β) :
    ∀ m : List α, (∀ x ∈ m, (g x).isSome) → (m.filterMap g).length = m.length := by
  intro m
  induction m with
  | nil => intro _; rfl
  | cons x rest ih =>
    intro h
    have hx := h x (by simp)
    rcases Option.isSome_iff_exists.mp hx with ⟨b, hb⟩
    simp only [List.filterMap_cons, hb, List.length_cons]
    rw [ih (fun y hy => h y (by simp [hy]))]

/-- When every matched construction succeeds, the correlation output has
one entry per (box, matching skeleton) pair. -/
theorem length_correlate_pairs (cfg : ConfigurationDetectClasses)
    (skels : List SkeletonNode) :
    ∀ boxes : List BoxNode,
      (∀ b ∈ boxes, ∀ s ∈ skels, extractKey s.attrs = extractKey b.attrs →
        ∃ d, DetectedObject.make b s.points (extractKey b.attrs).1 cfg = .ok d) →
      (correlate_pairs boxes skels cfg).length =
        (boxes.map (fun b =>
          (skels.filter (fun s => extractKey s.attrs = extractKey b.attrs)).length)).sum := by
  intro boxes
  induction boxes with
  | nil => intro _; rfl
  | cons b rest ih =>
    intro h
    simp only [correlate_pairs, List.flatMap_cons, List.length_append,
      List.map_cons, List.sum_cons]
    have hblock : ((skels.filter
        (fun s => extractKey s.attrs = extractKey b.attrs)).filterMap
        (fun s => (DetectedObject.make b s.points (extractKey b.attrs).1 cfg).toOption)).length =
        (skels.filter (fun s => extractKey s.attrs = extractKey b.attrs)).length := by
      apply length_filterMap_of_isSome
      intro s hsmem
      have hs' := List.mem_filter.mp hsmem
      have hkey : extractKey s.attrs = extractKey b.attrs := by
        have := hs'.2
        simpa using this
      rcases h b (by simp) s hs'.1 hkey with ⟨d, hd⟩
      simp [hd, Except.toOption]
    rw [hblock]
    have := ih (fun b' hb' s hs' hk => h b' (by simp [hb']) s hs' hk)
    simp only [correlate_pairs] at this
    rw [this]

/-! ## C2: correlation -/

/-- C2 counterexample: one box whose key is matched by two skeletons
produces two DetectedObjects (the skeleton loop has no break and appends
one object per matching skeleton), not one as the claim states. -/
theorem C2_counterexample :
    get_detected_object_list [exBox] [exSkel1, exSkel2] exCfg =
      .ok [exDetected1, exDetected2] ∧
    ([exDetected1, exDetected2] : List DetectedObject).length ≠ 1 :=
  ⟨rfl, by decide⟩

/-- C2 (amended): on a successful run, correlation produces one
DetectedObject per (box, matching skeleton) pair — every skeleton whose
key equals the box's key contributes, not only the first — in box-major,
skeleton-minor input order; a box with no matching skeleton contributes
nothing. -/
theorem C2_amended (cfg : ConfigurationDetectClasses) (boxes : List BoxNode)
    (skels : List SkeletonNode) (l : List DetectedObject)
    (h : get_detected_object_list boxes skels cfg = .ok l) :
    l = correlate_pairs boxes skels cfg ∧
    l.length = (boxes.map (fun b =>
      (skels.filter (fun s => extractKey s.attrs = extractKey b.attrs)).length)).sum := by
  obtain ⟨h1, h2⟩ := corrBoxes_ok cfg skels boxes [] l h
  have h1' : l = correlate_pairs boxes skels cfg := by simpa using h1
  refine ⟨h1', ?_⟩
  rw [h1']
  exact length_correlate_pairs cfg skels boxes h2

/-- C2 witness: a concrete successful correlation, evaluated. -/
theorem C2_witness :
    get_detected_object_list [exBox] [exSkel1, exSkel2] exCfg =
      .ok [exDetected1, exDetected2] ∧
    ([exDetected1, exDetected2] : List DetectedObject) =
      correlate_pairs [exBox] [exSkel1, exSkel2] exCfg ∧
    ([exDetected1, exDetected2] : List DetectedObject).length =
      (([exBox] : List BoxNode).map (fun b =>
        (([exSkel1, exSkel2] : List SkeletonNode).filter
          (fun s => extractKey s.attrs = extractKey b.attrs)).length)).sum :=
  ⟨rfl, C2_amended exCfg [exBox] [exSkel1, exSkel2] [exDetected1, exDetected2] rfl⟩

/-! ## C3: absent correlation attributes -/

/-- C3 counterexample: a box with no attributes has the key
(None, None); a skeleton with no attributes has the same key, so they
match (None equals None), and the class lookup on None then raises —
contradicting the claim that such annotations match nothing and no error
is raised. -/
theorem C3_counterexample :
    get_detected_object_list [⟨0, 0, 1, 1, []⟩] [⟨[], []⟩] exCfg =
      .error "KeyError" := rfl

theorem corrSkels_of_no_match (cfg : ConfigurationDetectClasses) (box : BoxNode)
    (bkey : Option String × Option String) :
    ∀ (skels : List SkeletonNode) (acc : List DetectedObject),
      (∀ s ∈ skels, extractKey s.attrs ≠ bkey) →
      corrSkels cfg box bkey acc skels = .ok acc := by
  intro skels
  induction skels with
  | nil => intro acc _; rfl
  | cons s rest ih =>
    intro acc h
    rw [corrSkels, if_neg (h s (by simp))]
    exact ih acc (fun t ht => h t (by simp [ht]))

theorem corrSkels_error_of_match_none (cfg : ConfigurationDetectClasses)
    (box : BoxNode) (bkey : Option String × Option String)
    (hb : bkey.1 = none) :
    ∀ (skels : List SkeletonNode) (acc : List DetectedObject),
      (∃ s ∈ skels, extractKey s.attrs = bkey) →
      ∃ e, corrSkels cfg box bkey acc skels = .error e := by
  intro skels
  induction skels with
  | nil =>
    intro acc h
    rcases h with ⟨s, hs, _⟩
    exact absurd hs (by simp)
  | cons s rest ih =>
    intro acc h
    by_cases hkey : extractKey s.attrs = bkey
    · rw [corrSkels, if_pos hkey]
      have hmake : DetectedObject.make box s.points bkey.1 cfg = .error "KeyError" := by
        rw [DetectedObject.make, hb]
        rfl
      rw [hmake]
      exact ⟨"KeyError", rfl⟩
    · rw [corrSkels, if_neg hkey]
      apply ih
      rcases h with ⟨t, ht, hkt⟩
      rcases List.mem_cons.mp ht with rfl | htr
      · exact absurd hkt hkey
      · exact ⟨t, htr, hkt⟩

/-- C3 (amended): an absent class or id attribute leaves that key
component unset (None), and matching is plain equality of keys, so None
matches None rather than nothing.  For a box whose class attribute is
absent: if no skeleton has an identical key the box contributes no
DetectedObject and no error is raised; but if some skeleton's key is
identical (its attributes likewise absent), the pair matches and the
class lookup on None raises an error. -/
theorem C3_amended (cfg : ConfigurationDetectClasses) (box : BoxNode)
    (skels : List SkeletonNode)
    (hb : (extractKey box.attrs).1 = none) :
    ((∀ s ∈ skels, extractKey s.attrs ≠ extractKey box.attrs) →
      get_detected_object_list [box] skels cfg = .ok []) ∧
    ((∃ s ∈ skels, extractKey s.attrs = extractKey box.attrs) →
      ∃ e, get_detected_object_list [box] skels cfg = .error e) := by
  constructor
  · intro h
    unfold get_detected_object_list
    rw [corrBoxes, corrSkels_of_no_match cfg box (extractKey box.attrs) skels [] h]
    rfl
  · intro h
    rcases corrSkels_error_of_match_none cfg box (extractKey box.attrs) hb
      skels [] h with ⟨e, he⟩
    refine ⟨e, ?_⟩
    unfold get_detected_object_list
    rw [corrBoxes, he]

/-- C3 witness: a box with only an id attribute (class absent) against a
skeleton with a different key: no match, no error, no output; and
against a skeleton with the same absent-class key: an error. -/
theorem C3_witness :
    ((extractKey [(⟨"id", "7"⟩ : AttributeNode)]).1 = none) ∧
    get_detected_object_list [⟨0, 0, 1, 1, [⟨"id", "7"⟩]⟩]
      [⟨exKeyAttrs, []⟩] exCfg = .ok [] := by
  refine ⟨rfl, ?_⟩
  exact (C3_amended exCfg ⟨0, 0, 1, 1, [⟨"id", "7"⟩]⟩ [⟨exKeyAttrs, []⟩] rfl).1
    (by decide)

/-! ## C8: unresolved class lookup is fatal -/

theorem get_error_of_unresolved_class (cfg : ConfigurationDetectClasses)
    (boxes : List BoxNode) (skels : List SkeletonNode)
    (box : BoxNode) (hbox : box ∈ boxes) (s : SkeletonNode) (hs : s ∈ skels)
    (hkey : extractKey s.attrs = extractKey box.attrs)
    (c : String) (hc : (extractKey box.attrs).1 = some c)
    (hreg : cfg.classes_id.lookup c = none) :
    ∃ e, get_detected_object_list boxes skels cfg = .error e := by
  have hmake : DetectedObject.make box s.points (extractKey box.attrs).1 cfg =
      .error "KeyError" := by
    rw [DetectedObject.make, hc]
    simp [hreg]
  cases hres : get_detected_object_list boxes skels cfg with
  | ok l =>
    obtain ⟨-, h2⟩ := corrBoxes_ok cfg skels boxes [] l hres
    rcases h2 box hbox s hs hkey with ⟨d, hd⟩
    rw [hmake] at hd
    cases hd
  | error e => exact ⟨e, rfl⟩

theorem processImageNode_error_of_get_error (cfg : ConfigurationDetectClasses)
    (node : ImageNode) (hne : node.boxes ≠ []) (e : String)
    (hget : get_detected_object_list node.boxes node.skeletons cfg = .error e) :
    processImageNode cfg node = .error e := by
  unfold processImageNode
  rw [if_pos (by simpa [List.length_pos] using hne), hget]

theorem runGo_error_of_mem (cfg : ConfigurationDetectClasses)
    (node : ImageNode) :
    ∀ (nodes : List ImageNode) (acc : List (String × FileContent)),
      node ∈ nodes → (∃ e, processImageNode cfg node = .error e) →
      ∃ e, runGo cfg acc nodes = .error e := by
  intro nodes
  induction nodes with
  | nil =>
    intro acc hmem _
    exact absurd hmem (by simp)
  | cons n rest ih =>
    intro acc hmem herr
    rcases List.mem_cons.mp hmem with rfl | hmr
    · rcases herr with ⟨e, he⟩
      rw [runGo, he]
      exact ⟨e, rfl⟩
    · cases hp : processImageNode cfg n with
      | ok r =>
        cases r with
        | none =>
          rw [runGo, hp]
          exact ih acc hmr herr
        | some out =>
          rw [runGo, hp]
          exact ih (acc ++ [out]) hmr herr
      | error e =>
        rw [runGo, hp]
        exact ⟨e, rfl⟩

/-- C8: if any image of the document contains a box correlated with a
skeleton whose declared class name is not a key of the registry, the
DetectedObject construction fails with a lookup error and the whole run
aborts with an error; it never skips the object and continues. -/
theorem C8_unresolved_class_aborts (cfg : ConfigurationDetectClasses)
    (nodes : List ImageNode) (node : ImageNode) (hnode : node ∈ nodes)
    (box : BoxNode) (hbox : box ∈ node.boxes)
    (s : SkeletonNode) (hs : s ∈ node.skeletons)
    (hkey : extractKey s.attrs = extractKey box.attrs)
    (c : String) (hc : (extractKey box.attrs).1 = some c)
    (hreg : cfg.classes_id.lookup c = none) :
    ∃ e, runScript cfg nodes = .error e := by
  rcases get_error_of_unresolved_class cfg node.boxes node.skeletons box hbox
    s hs hkey c hc hreg with ⟨e, hget⟩
  have hne : node.boxes ≠ [] := by
    intro hempty
    rw [hempty] at hbox
    exact absurd hbox (by simp)
  have hpe := processImageNode_error_of_get_error cfg node hne e hget
  exact runGo_error_of_mem cfg node nodes [] hnode ⟨e, hpe⟩

/-- C8 witness: a document whose single image correlates a box and
skeleton of the unregistered class z aborts the run. -/
theorem C8_witness :
    exCfg.classes_id.lookup "z" = none ∧
    (runScript exCfg [exBadNode]).toOption = none := by
  refine ⟨rfl, ?_⟩
  rcases C8_unresolved_class_aborts exCfg [exBadNode] exBadNode (by simp)
    ⟨0, 0, 1, 1, exBadAttrs⟩ (by simp [exBadNode]) ⟨exBadAttrs, []⟩
    (by simp [exBadNode]) rfl "z" rfl rfl with ⟨e, he⟩
  rw [he]
  rfl

/-! ## C1: fixed-width keypoint block -/

theorem length_write_points (kp : PointsNode) (W H : ℕ) :
    (write_points_of_object kp W H).length = 3 := by
  unfold write_points_of_object
  split <;> rfl

theorem length_own_tokens (W H : ℕ) (d : DetectedObject) :
    (d.points_node_list.foldl
      (fun a kp => a ++ write_points_of_object kp W H) []).length =
      3 * d.points_node_list.length := by
  rw [foldl_append_eq, List.nil_append]
  exact length_flatten_map_of_const _ 3 _ (fun kp _ => length_write_points kp W H)

theorem length_replicate_triples (n : ℕ) :
    ((List.replicate n [(0:ℚ), 0, 0]).flatten).length = 3 * n := by
  induction n with
  | zero => rfl
  | succ m ih =>
    simp only [List.replicate_succ, List.flatten_cons, List.length_append, ih,
      List.length_cons, List.length_nil]
    omega

theorem sum_map_three_mul (f : ℕ → ℕ) (l : List ℕ) :
    (l.map fun i => 3 * f i).sum = 3 * (l.map f).sum := by
  induction l with
  | nil => rfl
  | cons x rest ih => simp [ih, Nat.mul_add]

/-- The keypoint loop, on the index list it is given: when every
non-own index has a registered keypoint count, the loop succeeds and
contributes 3 tokens per own keypoint on the own index and 3 tokens per
registered keypoint on every other index. -/
theorem kpBlockGo_ok_length (cfg : ConfigurationDetectClasses) (W H : ℕ)
    (d : DetectedObject) (f : ℕ → ℕ) :
    ∀ (idxs : List ℕ) (acc : List ℚ),
      (∀ i ∈ idxs, d.object_class_id ≠ i →
        cfg.amount_of_keypoints.lookup i = some (f i)) →
      ∃ l, kpBlockGo cfg W H d acc idxs = .ok l ∧
        l.length = acc.length + (idxs.map (fun i =>
          if d.object_class_id = i then 3 * d.points_node_list.length
          else 3 * f i)).sum := by
  intro idxs
  induction idxs with
  | nil =>
    intro acc _
    exact ⟨acc, rfl, by simp⟩
  | cons i rest ih =>
    intro acc h
    by_cases hid : d.object_class_id = i
    · rw [kpBlockGo, if_pos hid]
      rcases ih (acc ++ d.points_node_list.foldl
          (fun a kp => a ++ write_points_of_object kp W H) [])
          (fun j hj hne => h j (by simp [hj]) hne) with ⟨l, hl, hlen⟩
      refine ⟨l, hl, ?_⟩
      rw [hlen]
      simp only [List.length_append, length_own_tokens, List.map_cons,
        List.sum_cons, if_pos hid]
      ring
    · have hlook := h i (by simp) hid
      rw [kpBlockGo, if_neg hid, hlook]
      rcases ih (acc ++ (List.replicate (f i) [(0:ℚ), 0, 0]).flatten)
          (fun j hj hne => h j (by simp [hj]) hne) with ⟨l, hl, hlen⟩
      refine ⟨l, hl, ?_⟩
      rw [hlen]
      simp only [List.length_append, length_replicate_triples, List.map_cons,
        List.sum_cons, if_neg hid]
      ring

/-- C1 counterexample: a registry with a single class of 2 keypoints and
an object of that class with its 2 keypoints yields a keypoint block of
6 tokens (3 per triple), not the 4 x (sum of keypoint counts) = 8 the
claim states. -/
theorem C1_counterexample :
    (keypoint_block exCfg 10 10 exObj).toOption.map List.length = some 6 ∧
    4 * ((exCfg.amount_of_keypoints.map Prod.snd).sum) = 8 ∧ (6 : ℕ) ≠ 8 :=
  ⟨by decide, rfl, by decide⟩

/-- C1 (amended): provided every registered class id below the registry
size has a keypoint count and the object's own ordered keypoint list has
exactly the registered count for its class, the emitted keypoint block
of a row has exactly 3 x (sum of keypointCountOf over all registered
classes) tokens, independent of which class the object belongs to: the
own-class block contributes 3 tokens per real keypoint and every other
class id i contributes keypointCountOf i placeholder triples 0 0 0. -/
theorem C1_amended (cfg : ConfigurationDetectClasses) (W H : ℕ)
    (d : DetectedObject) (f : ℕ → ℕ)
    (hf : ∀ i, i < cfg.amount_of_keypoints.length →
      cfg.amount_of_keypoints.lookup i = some (f i))
    (hcid : d.object_class_id < cfg.amount_of_keypoints.length)
    (hown : d.points_node_list.length = f d.object_class_id) :
    ∃ l, keypoint_block cfg W H d = .ok l ∧
      l.length = 3 * ((List.range cfg.amount_of_keypoints.length).map f).sum := by
  rcases kpBlockGo_ok_length cfg W H d f
      (List.range cfg.amount_of_keypoints.length) []
      (fun i hi _ => hf i (List.mem_range.mp hi)) with ⟨l, hl, hlen⟩
  refine ⟨l, hl, ?_⟩
  rw [hlen]
  have hfun : (fun i => if d.object_class_id = i then
      3 * d.points_node_list.length else 3 * f i) = fun i => 3 * f i := by
    funext i
    split
    · rename_i hEq
      rw [hown, hEq]
    · rfl
  rw [hfun]
  simp only [List.length_nil, Nat.zero_add]
  exact sum_map_three_mul f _

/-- C1 witness: the two-class registry, an object of class a with its
two keypoints: the block has 3 x (2 + 3) = 15 tokens. -/
theorem C1_witness :
    ((∀ i, i < exCfg2.amount_of_keypoints.length →
        exCfg2.amount_of_keypoints.lookup i = some (if i = 0 then 2 else 3)) ∧
      exObj.object_class_id < exCfg2.amount_of_keypoints.length ∧
      exObj.points_node_list.length =
        (if exObj.object_class_id = 0 then 2 else 3)) ∧
    (keypoint_block exCfg2 10 10 exObj).toOption.map List.length =
      some (3 * ((List.range exCfg2.amount_of_keypoints.length).map
        (fun i => if i = 0 then 2 else 3)).sum) := by
  refine ⟨⟨by decide, by decide, by decide⟩, ?_⟩
  rcases C1_amended exCfg2 10 10 exObj (fun i => if i = 0 then 2 else 3)
    (by decide) (by decide) (by decide) with ⟨l, hl, hlen⟩
  rw [hl]
  show some l.length = _
  rw [hlen]

/-! ## C7: one output file per image with boxes -/

/-- C7: an image with zero box elements produces no output file at all;
an image with at least one box, when processed without error, produces
exactly one output file; in particular, when every box fails
correlation, an output file is still created and is empty. -/
theorem C7_file_per_image (cfg : ConfigurationDetectClasses) (node : ImageNode) :
    (node.boxes = [] → processImageNode cfg node = .ok none) ∧
    (node.boxes ≠ [] → ∀ r, processImageNode cfg node = .ok r →
      ∃ out, r = some out) ∧
    (node.boxes ≠ [] →
      get_detected_object_list node.boxes node.skeletons cfg = .ok [] →
      processImageNode cfg node =
        .ok (some (image_name_with_txt_extension node.name, []))) := by
  refine ⟨?_, ?_, ?_⟩
  · intro h
    unfold processImageNode
    rw [if_neg (by simp [h])]
  · intro hne r h
    unfold processImageNode at h
    rw [if_pos (by simpa [List.length_pos] using hne)] at h
    cases hget : get_detected_object_list node.boxes node.skeletons cfg with
    | ok objs =>
      rw [hget] at h
      dsimp only at h
      cases hrows : emitRows cfg node.width node.height objs with
      | ok rows =>
        rw [hrows] at h
        cases h
        exact ⟨_, rfl⟩
      | error e =>
        rw [hrows] at h
        cases h
    | error e =>
      rw [hget] at h
      cases h
  · intro hne hget
    unfold processImageNode
    rw [if_pos (by simpa [List.length_pos] using hne), hget]
    rfl

/-- C7 witness: an image with no boxes is skipped; an image with one box
that no skeleton matches still produces an (empty) output file. -/
theorem C7_witness :
    ((⟨100, 100, "empty.png", [], []⟩ : ImageNode).boxes = [] ∧
      processImageNode exCfg ⟨100, 100, "empty.png", [], []⟩ = .ok none) ∧
    ((⟨100, 100, "img.png", [exBox], []⟩ : ImageNode).boxes ≠ [] ∧
      get_detected_object_list [exBox] [] exCfg = .ok [] ∧
      processImageNode exCfg ⟨100, 100, "img.png", [exBox], []⟩ =
        .ok (some ("img.txt", []))) := by
  refine ⟨⟨rfl, ?_⟩, by decide, rfl, ?_⟩
  · exact (C7_file_per_image exCfg ⟨100, 100, "empty.png", [], []⟩).1 rfl
  · have h := (C7_file_per_image exCfg ⟨100, 100, "img.png", [exBox], []⟩).2.2
      (by decide) rfl
    rw [h]
    rfl

/-! ## C9: determinism and idempotence of the output -/

/-- After replaying a list of writes, a file holds the last content
written to it, or its previous content when the run never wrote it. -/
theorem writeOutputs_apply (outs : List (String × FileContent)) :
    ∀ (fs : String → Option FileContent) (n : String),
      writeOutputs fs outs n =
        match lastW outs n with
        | some v => some v
        | none => fs n := by
  induction outs with
  | nil =>
    intro fs n
    rfl
  | cons o rest ih =>
    intro fs n
    show writeOutputs (fun m => if m = o.1 then some o.2 else fs m) rest n = _
    rw [ih]
    show _ = (match (match lastW rest n with
      | some v => some v
      | none => if n = o.1 then some o.2 else none) with
      | some v => some v
      | none => fs n)
    cases lastW rest n with
    | some v => rfl
    | none =>
      by_cases hn : n = o.1
      · simp [hn]
      · simp [hn]

/-- C9: the conversion is a pure function of the document and the
configuration, so a second run computes the identical list of
(file name, token content) outputs, and replaying the same writes over
the file system produced by the first run changes nothing: the final
file set and contents are identical. -/
theorem C9_deterministic_idempotent (cfg : ConfigurationDetectClasses)
    (nodes : List ImageNode) (outs : List (String × FileContent))
    (h : runScript cfg nodes = .ok outs) (fs : String → Option FileContent) :
    writeOutputs (writeOutputs fs outs) outs = writeOutputs fs outs := by
  clear h
  funext n
  rw [writeOutputs_apply, writeOutputs_apply]
  cases hlw : lastW outs n with
  | some v => rfl
  | none => rfl

/-- C9 witness: a one-image document whose box matches no skeleton:
the run writes one empty file, and replaying the run's writes on the
resulting file system is a no-op. -/
theorem C9_witness :
    runScript exCfg [⟨100, 100, "img.png", [exBox], []⟩] =
      .ok [("img.txt", [])] ∧
    writeOutputs (writeOutputs (fun _ => none) [("img.txt", [])])
        [("img.txt", [])] =
      writeOutputs (fun _ => none) [("img.txt", [])] :=
  ⟨rfl, C9_deterministic_idempotent exCfg [⟨100, 100, "img.png", [exBox], []⟩]
    [("img.txt", [])] rfl (fun _ => none)⟩

end YoloPose
